import Mathlib

set_option autoImplicit false

namespace HeliconeCli

/-!
Shallow embedding of the helicone-cli core pipeline: the filter-tree data
model and combinator (`src/lib/client.ts`, `src/commands/requests.ts`), the
time-range parser, the paginated export engine, the metrics aggregation, and
the two HTTP client backends.  TypeScript objects are modelled as association
lists, JS scalar values as an inductive `JsonVal`, `Date` values by their
epoch-milliseconds (the constructor `JsonVal.dateISO ms` stands for the
ISO-8601 string `new Date(ms).toISOString()`; `toISOString` is injective on
instants, so structure is preserved), and fallible operations return values
of an `ApiResult`/`Except` shape.
-/

mutual

/-- A JSON-like scalar or object value as used inside filter leaves. -/
inductive JsonVal where
  | s (v : String)
  | i (n : Int)
  | q (v : Rat)
  | b (v : Bool)
  | dateISO (ms : Int)
  | obj (fields : JsonFields)
deriving DecidableEq

/-- The insertion-ordered fields of a JS object literal. -/
inductive JsonFields where
  | nil
  | cons (key : String) (val : JsonVal) (rest : JsonFields)
deriving DecidableEq

end

/-- Build object fields from an association list. -/
def jf : List (String × JsonVal) → JsonFields
  | [] => .nil
  | (k, v) :: rest => .cons k v (jf rest)

/-- `FilterNode` from `src/lib/types.ts`: the string `"all"`, a plain object
mapping a table identifier to nested field/operator objects (a leaf;
`leaf JsonFields.nil` is the structurally-empty mapping), or a branch object
with keys `left`/`operator`/`right`. -/
inductive FilterNode where
  | all
  | leaf (fields : JsonFields)
  | branch (left : FilterNode) (op : String) (right : FilterNode)
deriving DecidableEq

/-- `filter === "all"` in JS. -/
def isAllMarker : FilterNode → Bool
  | .all => true
  | _ => false

/-- `typeof filter === "object" && Object.keys(filter).length === 0` in JS.
A branch object always has the three keys `left`, `operator`, `right`, so it
is never structurally empty; `"all"` is a string, not an object. -/
def isEmptyObj : FilterNode → Bool
  | .leaf .nil => true
  | _ => false

/-- `combineFilters` from `src/commands/requests.ts` (combine two filter
nodes with the AND operator).  `none` models the JS `null`. -/
def combineFilters : Option FilterNode → FilterNode → FilterNode
  | none, filter2 => filter2
  | some filter1, filter2 =>
    if isAllMarker filter1 || isEmptyObj filter1 then filter2
    else if isAllMarker filter2 || isEmptyObj filter2 then filter1
    else .branch filter1 "and" filter2

/-- The convenience-condition record accepted by `buildFilter`
(`src/lib/client.ts`).  JS `undefined` is `none`; `Date` fields carry the
epoch milliseconds; `properties` is an insertion-ordered key/value list. -/
structure Conditions where
  model : Option String := none
  modelContains : Option String := none
  status : Option Int := none
  userId : Option String := none
  provider : Option String := none
  startDate : Option Int := none
  endDate : Option Int := none
  minCost : Option Rat := none
  maxCost : Option Rat := none
  minLatency : Option Int := none
  maxLatency : Option Int := none
  properties : Option (List (String × String)) := none
  cached : Option Bool := none
  search : Option String := none
  requestBodyContains : Option String := none
  responseBodyContains : Option String := none
deriving Repr

/-- `if (conditions.x) filters.push(node(x))` for a string condition: JS
truthiness admits only a present, non-empty string. -/
def strCond (o : Option String) (node : String → FilterNode) : List FilterNode :=
  match o with
  | some v => if v == "" then [] else [node v]
  | none => []

/-- `if (conditions.x !== undefined) filters.push(node(x))` for a numeric,
boolean or date condition. -/
def optCond {α : Type} (o : Option α) (node : α → FilterNode) : List FilterNode :=
  match o with
  | some v => [node v]
  | none => []

/-- `if (conditions.properties) for (const [key, value] of Object.entries(..))
filters.push(..)`: one leaf per property key in insertion order. -/
def propsCond (o : Option (List (String × String))) (node : String → String → FilterNode) :
    List FilterNode :=
  match o with
  | some props => props.map (fun kv => node kv.1 kv.2)
  | none => []

/-- The `filters` array built by `buildFilter` (`src/lib/client.ts`), in the
source's push order. -/
def buildFilterList (conditions : Conditions) : List FilterNode :=
  strCond conditions.model (fun m =>
    .leaf (jf [("request_response_rmt", .obj (jf [("model", .obj (jf [("equals", .s m)]))]))])) ++
  strCond conditions.modelContains (fun mc =>
    .leaf (jf [("request_response_rmt",
      .obj (jf [("model", .obj (jf [("ilike", .s ("%" ++ mc ++ "%"))]))]))])) ++
  optCond conditions.status (fun st =>
    .leaf (jf [("request_response_rmt", .obj (jf [("status", .obj (jf [("equals", .i st)]))]))])) ++
  strCond conditions.userId (fun u =>
    .leaf (jf [("request_response_rmt", .obj (jf [("user_id", .obj (jf [("equals", .s u)]))]))])) ++
  strCond conditions.provider (fun p =>
    .leaf (jf [("request_response_rmt", .obj (jf [("provider", .obj (jf [("equals", .s p)]))]))])) ++
  optCond conditions.startDate (fun ms =>
    .leaf (jf [("request_response_rmt",
      .obj (jf [("request_created_at", .obj (jf [("gte", .dateISO ms)]))]))])) ++
  optCond conditions.endDate (fun ms =>
    .leaf (jf [("request_response_rmt",
      .obj (jf [("request_created_at", .obj (jf [("lte", .dateISO ms)]))]))])) ++
  optCond conditions.minCost (fun v =>
    .leaf (jf [("request_response_rmt", .obj (jf [("cost", .obj (jf [("gte", .q v)]))]))])) ++
  optCond conditions.maxCost (fun v =>
    .leaf (jf [("request_response_rmt", .obj (jf [("cost", .obj (jf [("lte", .q v)]))]))])) ++
  optCond conditions.minLatency (fun v =>
    .leaf (jf [("request_response_rmt", .obj (jf [("latency", .obj (jf [("gte", .i v)]))]))])) ++
  optCond conditions.maxLatency (fun v =>
    .leaf (jf [("request_response_rmt", .obj (jf [("latency", .obj (jf [("lte", .i v)]))]))])) ++
  propsCond conditions.properties (fun key value =>
    .leaf (jf [("request_response_rmt",
      .obj (jf [("properties", .obj (jf [(key, .obj (jf [("equals", .s value)]))]))]))])) ++
  optCond conditions.cached (fun c =>
    .leaf (jf [("request_response_rmt",
      .obj (jf [("cache_enabled", .obj (jf [("equals", .b c)]))]))])) ++
  strCond conditions.search (fun sv =>
    .branch
      (.leaf (jf [("request_response_rmt", .obj (jf [("request_body", .obj (jf [("contains", .s sv)]))]))]))
      "or"
      (.leaf (jf [("request_response_rmt", .obj (jf [("response_body", .obj (jf [("contains", .s sv)]))]))]))) ++
  strCond conditions.requestBodyContains (fun rb =>
    .leaf (jf [("request_response_rmt", .obj (jf [("request_body", .obj (jf [("contains", .s rb)]))]))])) ++
  strCond conditions.responseBodyContains (fun rb =>
    .leaf (jf [("request_response_rmt", .obj (jf [("response_body", .obj (jf [("contains", .s rb)]))]))]))

/-- `buildFilter` from `src/lib/client.ts`: the pushed leaves AND-combined —
`"all"` for zero filters, the single filter alone, and otherwise the
left-associated chain `{left: result, operator: "and", right: filters[i]}`. -/
def buildFilter (conditions : Conditions) : FilterNode :=
  match buildFilterList conditions with
  | [] => .all
  | f :: rest => rest.foldl (fun result fi => .branch result "and" fi) f

/-!
Specification-side description of `buildFilter` for the refinement claim:
the list of generated condition subtrees, written from the spec's wording
(one `Leaf` per present condition in the documented iteration order — model,
model-contains, status, user-id, provider, start-date, end-date, min-cost,
max-cost, min-latency, max-latency, each property key in insertion order,
cached, search, request-contains, response-contains — with free-text search
expanding to an `or`-branch over request-body / response-body contains
leaves), and a left-associated `and`-chain combinator.
-/

/-- Spec: the leaf for one convenience condition over the request table. -/
def specLeaf (field : String) (op : String) (v : JsonVal) : FilterNode :=
  .leaf (jf [("request_response_rmt", .obj (jf [(field, .obj (jf [(op, v)]))]))])

/-- Spec: a present string condition (JS-truthy: present and non-empty). -/
def presentStr (o : Option String) : Option String :=
  match o with
  | some v => if v == "" then none else some v
  | none => none

/-- Spec: the subtrees generated for a condition set, in the documented
input iteration order; each present condition contributes exactly one leaf
except free-text search, which contributes an `or`-branch over a
request-body-contains leaf and a response-body-contains leaf. -/
def generatedSubtrees (c : Conditions) : List FilterNode :=
  ((presentStr c.model).map (fun m => specLeaf "model" "equals" (.s m))).toList ++
  ((presentStr c.modelContains).map
    (fun mc => specLeaf "model" "ilike" (.s ("%" ++ mc ++ "%")))).toList ++
  (c.status.map (fun st => specLeaf "status" "equals" (.i st))).toList ++
  ((presentStr c.userId).map (fun u => specLeaf "user_id" "equals" (.s u))).toList ++
  ((presentStr c.provider).map (fun p => specLeaf "provider" "equals" (.s p))).toList ++
  (c.startDate.map (fun ms => specLeaf "request_created_at" "gte" (.dateISO ms))).toList ++
  (c.endDate.map (fun ms => specLeaf "request_created_at" "lte" (.dateISO ms))).toList ++
  (c.minCost.map (fun v => specLeaf "cost" "gte" (.q v))).toList ++
  (c.maxCost.map (fun v => specLeaf "cost" "lte" (.q v))).toList ++
  (c.minLatency.map (fun v => specLeaf "latency" "gte" (.i v))).toList ++
  (c.maxLatency.map (fun v => specLeaf "latency" "lte" (.i v))).toList ++
  ((c.properties.getD []).map (fun kv =>
    .leaf (jf [("request_response_rmt",
      .obj (jf [("properties", .obj (jf [(kv.1, .obj (jf [("equals", .s kv.2)]))]))]))]))) ++
  (c.cached.map (fun b => specLeaf "cache_enabled" "equals" (.b b))).toList ++
  ((presentStr c.search).map (fun sv =>
    FilterNode.branch (specLeaf "request_body" "contains" (.s sv)) "or"
      (specLeaf "response_body" "contains" (.s sv)))).toList ++
  ((presentStr c.requestBodyContains).map
    (fun rb => specLeaf "request_body" "contains" (.s rb))).toList ++
  ((presentStr c.responseBodyContains).map
    (fun rb => specLeaf "response_body" "contains" (.s rb))).toList

/-- Spec: AND-combination of a subtree list — `AllMarker` for zero subtrees,
the bare subtree for one, and otherwise a left-associated chain of `and`
branches in list order. -/
def leftAssocAnd : List FilterNode → FilterNode
  | [] => .all
  | f :: rest => rest.foldl (fun acc g => .branch acc "and" g) f

/-! ### Time-range parsing (`parseTimeRange` / `parseDate`, src/lib/client.ts) -/

/-- `parseInt(_, 10)` on an all-digit string. -/
def digitsToNat (cs : List Char) : Nat :=
  cs.foldl (fun acc c => acc * 10 + (c.toNat - Char.toNat '0')) 0

/-- The regex `^(\d+)([hdwm])$`: one or more digits followed by a single
unit character.  Returns the captured magnitude and unit on a match. -/
def matchDuration (range : String) : Option (Nat × Char) :=
  let cs := range.toList
  match cs.getLast? with
  | none => none
  | some u =>
    if u = 'h' ∨ u = 'd' ∨ u = 'w' ∨ u = 'm' then
      let digits := cs.dropLast
      if digits ≠ [] ∧ digits.all (fun c => c.isDigit) then
        some (digitsToNat digits, u)
      else none
    else none

/-- `parseTimeRange` from `src/lib/client.ts`, with the reference instant
`new Date()` passed explicitly as epoch milliseconds. -/
def parseTimeRange (nowMs : Int) (range : String) : Except String Int :=
  match matchDuration range with
  | none =>
    .error ("Invalid time range format: " ++ range ++
      ". Use formats like \"24h\", \"7d\", \"4w\", \"1m\"")
  | some (value, unit) =>
    if unit = 'h' then .ok (nowMs - (value : Int) * (60 * 60 * 1000))
    else if unit = 'd' then .ok (nowMs - (value : Int) * (24 * 60 * 60 * 1000))
    else if unit = 'w' then .ok (nowMs - (value : Int) * (7 * 24 * 60 * 60 * 1000))
    else if unit = 'm' then .ok (nowMs - (value : Int) * (30 * 24 * 60 * 60 * 1000))
    else .error ("Unknown time unit: " ++ String.singleton unit)

/-- `parseDate` from `src/lib/client.ts`.  The duration regex is tested
first; otherwise the string goes to `new Date(value)`, modelled by the
parameter `isoParse` (returning `none` when the result is `NaN`). -/
def parseDate (isoParse : String → Option Int) (nowMs : Int) (value : String) :
    Except String Int :=
  if (matchDuration value).isSome then parseTimeRange nowMs value
  else
    match isoParse value with
    | some t => .ok t
    | none =>
      .error ("Invalid date format: " ++ value ++
        ". Use ISO format (YYYY-MM-DD) or relative (7d, 24h)")

/-! ### Query-contract results and CSV field escaping -/

/-- The `{data, error}` result shape of the query contract
(`ApiResult<T>` in `src/lib/types.ts`). -/
structure ApiResult (α : Type) where
  data : Option α
  error : Option String
deriving DecidableEq

/-- `if (result.error)` in JS: the error is present and a non-empty string. -/
def errTruthy (e : Option String) : Bool :=
  match e with
  | some msg => !(msg == "")
  | none => false

/-- Concatenated contents of the output stream. -/
def concatWrites : List String → String
  | [] => ""
  | w :: rest => w ++ concatWrites rest

/-- `sep`-joined chunks (the shape of a comma-joined JSON array body). -/
def joinSep (sep : String) : List String → String
  | [] => ""
  | [x] => x
  | x :: y :: rest => x ++ sep ++ joinSep sep (y :: rest)

/-- JS `str.includes(c)` for a single-character needle. -/
def includesChar (s : String) (c : Char) : Bool :=
  s.toList.contains c

/-- JS `str.replace(/"/g, '"""')`: every double-quote character doubled. -/
def doubleQuotes (s : String) : String :=
  concatWrites (s.toList.map (fun c => if c = '"' then "\"\"" else String.singleton c))

/-- The CSV field writer of the `requests export` action
(`src/commands/requests.ts`): `""` for null/undefined, and quoting only when
the stringified value contains a comma or a double quote. -/
def csvFieldExport (v : Option String) : String :=
  match v with
  | none => ""
  | some str =>
    if includesChar str ',' || includesChar str '"' then
      "\"" ++ doubleQuotes str ++ "\""
    else str

/-- The CSV field writer of `formatRequestsCsv` (`src/lib/output.ts`):
quoting when the stringified value contains a comma, a double quote or a
newline. -/
def csvFieldFormat (v : Option String) : String :=
  match v with
  | none => ""
  | some str =>
    if includesChar str ',' || includesChar str '"' || includesChar str '\n' then
      "\"" ++ doubleQuotes str ++ "\""
    else str

/-! ### The paginated export engine (`requests export`,
src/commands/requests.ts, lines 393–586)

The engine is generic in the record type `Rec`; serialization
(`JSON.stringify(req)` / `JSON.stringify(req, null, 2)`), field access for
CSV (`String((req as Record<string, unknown>)[field])`, `none` for
null/undefined) and the best-effort signed-body enrichment are passed as
parameters.  The output stream is modelled as the ordered list of chunks
written (`writes`), with the records it received in order as `sink`; the
query calls issued are recorded as `(offset, limit, exported-before)`
triples.  The `while` loop is expressed with an explicit fuel counter and
an `outOfFuel` marker so termination is a provable statement rather than a
typing artifact. -/

inductive ExportFormat where
  | jsonl
  | json
  | csv
deriving DecidableEq

/-- In-flight state of one export job. -/
structure LoopState (Rec : Type) where
  writes : List String
  sink : List Rec
  calls : List (Nat × Nat × Nat)
  offset : Nat
  exported : Nat
  isFirst : Bool
deriving DecidableEq

/-- Result of the export `while` loop. -/
inductive LoopResult (Rec : Type) where
  | done (st : LoopState Rec)
  | failed (st : LoopState Rec) (err : String)
  | outOfFuel (st : LoopState Rec)
deriving DecidableEq

/-- The state carried by any loop result. -/
def LoopResult.stateOf {Rec : Type} : LoopResult Rec → LoopState Rec
  | .done st => st
  | .failed st _ => st
  | .outOfFuel st => st

def LoopResult.isOutOfFuel {Rec : Type} : LoopResult Rec → Bool
  | .outOfFuel _ => true
  | _ => false

/-- One CSV row of the export action: the requested fields, escaped and
comma-joined. -/
def csvRowExport {Rec : Type} (getField : Rec → String → Option String)
    (fields : List String) (req : Rec) : String :=
  String.intercalate "," (fields.map (fun field => csvFieldExport (getField req field)))

/-- Writing one record to the output stream (the per-record body of the
export loop): `jsonl` one compact line, `json` a job-scoped first-record
flag and `,\n` separators, `csv` one escaped row. -/
def writeRecord {Rec : Type} (fmt : ExportFormat) (serCompact serPretty : Rec → String)
    (csvRow : Rec → String) (st : LoopState Rec) (req : Rec) : LoopState Rec :=
  match fmt with
  | .jsonl =>
    { st with writes := st.writes ++ [serCompact req ++ "\n"], sink := st.sink ++ [req] }
  | .json =>
    { st with
      writes := st.writes ++ (if st.isFirst then [] else [",\n"]) ++ [serPretty req],
      sink := st.sink ++ [req],
      isFirst := false }
  | .csv =>
    { st with writes := st.writes ++ [csvRow req ++ "\n"], sink := st.sink ++ [req] }

/-- The export `while (exported < recordsToExport)` loop.  Each iteration
requests `min(batchSize, recordsToExport - exported)` records at the
current offset; a truthy `result.error` aborts; an empty batch breaks; and
otherwise the records (optionally enriched) are written, `exported`
advances by the number of records returned, and `offset` advances by the
request batch size. -/
def exportLoop {Rec : Type} (fmt : ExportFormat) (serCompact serPretty : Rec → String)
    (csvRow : Rec → String) (includeBody : Bool) (enrich : Rec → Rec)
    (query : Nat → Nat → ApiResult (List Rec))
    (recordsToExport batchSize : Nat) : Nat → LoopState Rec → LoopResult Rec
  | 0, st => .outOfFuel st
  | fuel + 1, st =>
    if st.exported < recordsToExport then
      let limit := min batchSize (recordsToExport - st.exported)
      let result := query st.offset limit
      let st0 := { st with calls := st.calls ++ [(st.offset, limit, st.exported)] }
      if errTruthy result.error then .failed st0 (result.error.getD "")
      else
        let requests := result.data.getD []
        if requests.isEmpty then .done st0
        else
          let written := if includeBody then requests.map enrich else requests
          let st1 := written.foldl (writeRecord fmt serCompact serPretty csvRow) st0
          exportLoop fmt serCompact serPretty csvRow includeBody enrich query
            recordsToExport batchSize fuel
            { st1 with
              exported := st1.exported + requests.length,
              offset := st1.offset + batchSize }
    else .done st

/-- The format header written at job open: `[` for `json`, the field
header line for `csv`, nothing for `jsonl`. -/
def headerFor (fmt : ExportFormat) (fields : List String) : List String :=
  match fmt with
  | .json => ["[\n"]
  | .csv => [String.intercalate "," fields ++ "\n"]
  | .jsonl => []

/-- Overall outcome of the `requests export` action: the informational
"no requests found" path (exit 0, no stream opened), a completed export
(stream closed, exit 0), or a fatal batch error (stream closed, partial
writes left in place, exit non-zero). -/
inductive ExportOutcome (Rec : Type) where
  | noMatches
  | success (writes : List String) (sink : List Rec) (exported : Nat)
  | fatal (writes : List String) (sink : List Rec) (err : String)
deriving DecidableEq

def ExportOutcome.writesOf {Rec : Type} : ExportOutcome Rec → List String
  | .noMatches => []
  | .success w _ _ => w
  | .fatal w _ _ => w

/-- The `requests export` action (src/commands/requests.ts): count, the
`totalCount === 0` informational path, `recordsToExport` (note the JS
truthiness guard `maxRecords ? Math.min(totalCount, maxRecords) :
totalCount`, under which a cap of 0 means "no cap"), the format header, the
paginated loop (fuel `recordsToExport + 1` suffices, see
`exportLoop_no_fuel_exhaustion`), and the `json` closing bracket written
only on the non-error path. -/
def exportAction {Rec : Type} (fmt : ExportFormat) (serCompact serPretty : Rec → String)
    (getField : Rec → String → Option String) (fields : List String)
    (includeBody : Bool) (enrich : Rec → Rec)
    (count : ApiResult Nat) (query : Nat → Nat → ApiResult (List Rec))
    (maxRecords : Option Nat) (batchSize : Nat) : ExportOutcome Rec :=
  let totalCount := count.data.getD 0
  if totalCount = 0 then .noMatches
  else
    let recordsToExport :=
      match maxRecords with
      | some m => if m = 0 then totalCount else min totalCount m
      | none => totalCount
    let init : LoopState Rec :=
      { writes := headerFor fmt fields, sink := [], calls := [], offset := 0,
        exported := 0, isFirst := true }
    match exportLoop fmt serCompact serPretty (csvRowExport getField fields) includeBody
        enrich query recordsToExport batchSize (recordsToExport + 1) init with
    | .done st =>
      let finalWrites := match fmt with
        | .json => st.writes ++ ["\n]\n"]
        | _ => st.writes
      .success finalWrites st.sink st.exported
    | .failed st err => .fatal st.writes st.sink err
    | .outOfFuel st => .fatal st.writes st.sink "loop out of fuel"

/-- The paging source of the C1 scenario: a store holding exactly the
records `allRecs`, serving `allRecs.slice(offset, offset + limit)` and
never failing. -/
def pageQuery {Rec : Type} (allRecs : List Rec) : Nat → Nat → ApiResult (List Rec) :=
  fun off lim => ⟨some ((allRecs.drop off).take lim), none⟩

/-! ### Concrete JSON serialization and parsing, for checking that a
produced `json` export is a well-formed array.  Concrete export records are
flat string-valued objects `List (String × String)`. -/

/-- JS string-literal escaping (quote, backslash, newline). -/
def escChar (c : Char) : String :=
  if c = '"' then "\\\""
  else if c = '\\' then "\\\\"
  else if c = '\n' then "\\n"
  else String.singleton c

/-- A JSON string literal. -/
def jsStringLit (s : String) : String :=
  "\"" ++ concatWrites (s.toList.map escChar) ++ "\""

/-- `JSON.stringify(obj, null, 2)` for a flat string-valued object. -/
def prettyFlat (r : List (String × String)) : String :=
  match r with
  | [] => "\x7b\x7d"
  | _ =>
    "\x7b\n" ++
      joinSep ",\n" (r.map (fun kv => "  " ++ jsStringLit kv.1 ++ ": " ++ jsStringLit kv.2)) ++
      "\n\x7d"

/-- `JSON.stringify(obj)` (compact) for a flat string-valued object. -/
def compactFlat (r : List (String × String)) : String :=
  "\x7b" ++ joinSep "," (r.map (fun kv => jsStringLit kv.1 ++ ":" ++ jsStringLit kv.2)) ++ "\x7d"

/-- Parsed JSON values (strings, objects, arrays suffice here). -/
inductive PJson where
  | pstr (v : String)
  | pobj (fields : List (String × PJson))
  | parr (elems : List PJson)

/-- Skip JSON whitespace. -/
def skipWs : List Char → List Char
  | [] => []
  | c :: rest => if c = ' ' ∨ c = '\n' ∨ c = '\t' ∨ c = '\r' then skipWs rest else c :: rest

/-- Parse the remainder of a string literal (opening quote consumed). -/
def strLitAux : List Char → Option (String × List Char)
  | [] => none
  | c :: rest =>
    if c = '"' then some ("", rest)
    else if c = '\\' then
      match rest with
      | [] => none
      | e :: rest2 =>
        let dec : Char := if e = 'n' then '\n' else e
        match strLitAux rest2 with
        | some (s, rem) => some (String.singleton dec ++ s, rem)
        | none => none
    else
      match strLitAux rest with
      | some (s, rem) => some (String.singleton c ++ s, rem)
      | none => none

mutual

/-- Parse one JSON value. -/
def parseVal : Nat → List Char → Option (PJson × List Char)
  | 0, _ => none
  | fuel + 1, cs =>
    match skipWs cs with
    | [] => none
    | c :: rest =>
      if c = '"' then
        match strLitAux rest with
        | some (s, rem) => some (.pstr s, rem)
        | none => none
      else if c = '[' then
        match skipWs rest with
        | ']' :: rem => some (.parr [], rem)
        | cs2 => parseArrItems fuel cs2
      else if c = '\x7b' then
        match skipWs rest with
        | d :: rem => if d = '\x7d' then some (.pobj [], rem) else parseObjItems fuel (d :: rem)
        | [] => none
      else none

/-- Parse comma-separated array elements up to the closing bracket. -/
def parseArrItems : Nat → List Char → Option (PJson × List Char)
  | 0, _ => none
  | fuel + 1, cs =>
    match parseVal fuel cs with
    | some (v, rem) =>
      match skipWs rem with
      | ',' :: rem2 =>
        match parseArrItems fuel rem2 with
        | some (.parr vs, rem3) => some (.parr (v :: vs), rem3)
        | _ => none
      | ']' :: rem2 => some (.parr [v], rem2)
      | _ => none
    | none => none

/-- Parse comma-separated object entries up to the closing brace. -/
def parseObjItems : Nat → List Char → Option (PJson × List Char)
  | 0, _ => none
  | fuel + 1, cs =>
    match skipWs cs with
    | c :: rest =>
      if c = '"' then
        match strLitAux rest with
        | some (k, rem) =>
          match skipWs rem with
          | ':' :: rem2 =>
            match parseVal fuel rem2 with
            | some (v, rem3) =>
              match skipWs rem3 with
              | ',' :: rem4 =>
                match parseObjItems fuel rem4 with
                | some (.pobj fs, rem5) => some (.pobj ((k, v) :: fs), rem5)
                | _ => none
              | d :: rem4 => if d = '\x7d' then some (.pobj [(k, v)], rem4) else none
              | [] => none
            | none => none
          | _ => none
        | none => none
      else none
    | [] => none

end

/-- Parse a complete JSON text (no trailing garbage). -/
def parseJsonText (s : String) : Option PJson :=
  match parseVal (s.length + 1) s.toList with
  | some (v, rem) => if skipWs rem = [] then some v else none
  | none => none

/-! ### Metrics summary aggregation (`metrics summary`,
src/commands/metrics.ts, lines 85–132) -/

/-- `total_tokens` as returned by the API: a number, a numeric string, or
absent. -/
inductive TokenCount where
  | num (q : Rat)
  | str (v : String)
  | absent
deriving DecidableEq

/-- Leading decimal digits of a character list; `none` when there are
none. -/
def leadingDigits (cs : List Char) : Option Nat :=
  let ds := cs.takeWhile (fun c => c.isDigit)
  if ds.isEmpty then none else some (digitsToNat ds)

/-- `parseInt(s, 10)`: optional sign then leading digits; `none` models
`NaN`. -/
def parseIntJS (s : String) : Option Int :=
  match s.toList with
  | '-' :: rest => (leadingDigits rest).map (fun n => -(n : Int))
  | '+' :: rest => (leadingDigits rest).map (fun n => (n : Int))
  | cs => (leadingDigits cs).map (fun n => (n : Int))

/-- One request record as consumed by the `metrics summary` aggregation. -/
structure MetricsRec where
  total_tokens : TokenCount
  cost : Option Rat
  delay_ms : Option Rat
  response_status : Int
deriving DecidableEq

/-- `typeof req.total_tokens === "string" ? parseInt(req.total_tokens, 10) :
req.total_tokens`, then `tokens || 0`: `NaN`, `undefined` and `0` all
contribute 0. -/
def tokensOf (t : TokenCount) : Rat :=
  match t with
  | .num q => q
  | .str v => (((parseIntJS v).getD 0 : Int) : Rat)
  | .absent => 0

/-- The quantities computed by the `metrics summary` action. -/
structure SummaryMetrics where
  totalRequests : Nat
  sampleSize : Nat
  totalTokens : Rat
  totalCost : Rat
  totalLatency : Rat
  successCount : Nat
  errorCount : Nat
  avgLatency : Rat
  avgTokens : Rat
  avgCost : Rat
  errorRate : Rat
  scaleFactor : Rat
  estimatedTotalCost : Rat
  estimatedTotalTokens : Rat
deriving DecidableEq

/-- The aggregation of `metrics summary` (src/commands/metrics.ts):
`totalRequests` falls back to the sample size when the count endpoint
reports zero or errors; sums/averages/error rate over the sample; and the
extrapolation `scaleFactor = totalRequests > sampleSize ?
totalRequests / sampleSize : 1` applied to the cost and token sums only.
JS numbers are modelled as rationals. -/
def metricsSummary (countData : Option Nat) (requests : List MetricsRec) : SummaryMetrics :=
  let totalRequests : Nat :=
    match countData with
    | some c => if 0 < c then c else requests.length
    | none => requests.length
  let totalTokens : Rat := requests.foldl (fun acc r => acc + tokensOf r.total_tokens) 0
  let totalCost : Rat := requests.foldl (fun acc r => acc + r.cost.getD 0) 0
  let totalLatency : Rat := requests.foldl (fun acc r => acc + r.delay_ms.getD 0) 0
  let successCount :=
    (requests.filter (fun r => 200 ≤ r.response_status ∧ r.response_status < 300)).length
  let errorCount := (requests.filter (fun r => 400 ≤ r.response_status)).length
  let sampleSize := requests.length
  let avgLatency : Rat := if 0 < sampleSize then totalLatency / (sampleSize : Rat) else 0
  let avgTokens : Rat := if 0 < sampleSize then totalTokens / (sampleSize : Rat) else 0
  let avgCost : Rat := if 0 < sampleSize then totalCost / (sampleSize : Rat) else 0
  let errorRate : Rat :=
    if 0 < sampleSize then ((errorCount : Rat) / (sampleSize : Rat)) * 100 else 0
  let scaleFactor : Rat :=
    if sampleSize < totalRequests then (totalRequests : Rat) / (sampleSize : Rat) else 1
  { totalRequests := totalRequests
    sampleSize := sampleSize
    totalTokens := totalTokens
    totalCost := totalCost
    totalLatency := totalLatency
    successCount := successCount
    errorCount := errorCount
    avgLatency := avgLatency
    avgTokens := avgTokens
    avgCost := avgCost
    errorRate := errorRate
    scaleFactor := scaleFactor
    estimatedTotalCost := totalCost * scaleFactor
    estimatedTotalTokens := totalTokens * scaleFactor }

/-! ### The two HTTP client backends (`HeliconeClient.request`,
src/lib/client.ts; `GatewayHeliconeClient.request`,
src/lib/gateway-client.ts).

The platform `fetch`/`json()` primitives are modelled as explicit outcome
values; a thrown JS exception crossing the client boundary is modelled as
`Except.error`. -/

/-- The parsed body of an ok response: `response.json()` rejecting
(malformed JSON text), a JSON object carrying the `{data, error}` envelope
(`"data" in data`), or any other JSON value — a bare payload lacking the
envelope. -/
inductive BodyParse (α : Type) where
  | jsonThrows (msg : String)
  | envelope (data : Option α) (error : Option String)
  | bare (payload : α)
deriving DecidableEq

/-- One `fetch` outcome: the promise rejecting (network failure, timeout
abort), or a response with status, optional Retry-After, body text, and
parsed JSON body. -/
inductive FetchOutcome (α : Type) where
  | throws (msg : String)
  | resp (status : Nat) (retryAfter : Option Nat) (text : String) (body : BodyParse α)
deriving DecidableEq

/-- `response.ok`: status in [200, 300). -/
def respOk (status : Nat) : Bool := 200 ≤ status && status < 300

/-- The body of the retry `for` loop of `HeliconeClient.request`
(src/lib/client.ts).  `attempts i` is the fetch outcome of attempt `i`.
Thrown errors (fetch rejection or JSON parse) are caught into `lastError`
and the loop continues; a 429 with attempts remaining continues the loop
and otherwise falls through to the non-ok branch; a non-ok response
returns `API error <status>: <text>`; an ok envelope is returned as-is; an
ok non-envelope body is returned as a bare success.  The fuel is the
number of loop iterations remaining (`maxRetries + 1 - attempt`), and the
fuel-0 case is the loop exit returning the final retries-exhausted
error. -/
def requestGo {α : Type} (maxRetries : Nat) (attempts : Nat → FetchOutcome α) :
    Nat → Nat → Option String → ApiResult α
  | 0, _, lastError =>
    ⟨none, some ("Request failed after " ++ toString (maxRetries + 1) ++ " attempts: " ++
      lastError.getD "undefined")⟩
  | fuel + 1, attempt, lastError =>
    match attempts attempt with
    | .throws msg => requestGo maxRetries attempts fuel (attempt + 1) (some msg)
    | .resp status _retryAfter text body =>
      if status = 429 ∧ attempt < maxRetries then
        requestGo maxRetries attempts fuel (attempt + 1) lastError
      else if respOk status = false then
        ⟨none, some ("API error " ++ toString status ++ ": " ++ text)⟩
      else
        match body with
        | .jsonThrows msg => requestGo maxRetries attempts fuel (attempt + 1) (some msg)
        | .envelope d e => ⟨d, e⟩
        | .bare t => ⟨some t, none⟩

/-- `HeliconeClient.request`: the retry loop started at attempt 0. -/
def request {α : Type} (maxRetries : Nat) (attempts : Nat → FetchOutcome α) : ApiResult α :=
  requestGo maxRetries attempts (maxRetries + 1) 0 none

/-- `GatewayHeliconeClient.request` (src/lib/gateway-client.ts): no
try/catch — a rejected fetch or a rejecting `response.json()` propagates as
an exception (`Except.error`); a non-ok response returns the body text as
the error value; an ok envelope is returned as-is and an ok non-envelope
body as a bare success. -/
def gatewayRequest {α : Type} (outcome : FetchOutcome α) : Except String (ApiResult α) :=
  match outcome with
  | .throws msg => .error msg
  | .resp status _retryAfter text body =>
    if respOk status = false then .ok ⟨none, some text⟩
    else
      match body with
      | .jsonThrows msg => .error msg
      | .envelope d e => .ok ⟨d, e⟩
      | .bare t => .ok ⟨some t, none⟩

/-! ### Bridging lemmas between the code-side guards and the spec-side
present-condition description -/

theorem strCond_eq_present (o : Option String) (node : String → FilterNode) :
    strCond o node = ((presentStr o).map node).toList := by
  cases o with
  | none => rfl
  | some v =>
    cases h : (v == "") <;> simp [strCond, presentStr, h]

theorem optCond_eq_map {α : Type} (o : Option α) (node : α → FilterNode) :
    optCond o node = (o.map node).toList := by
  cases o <;> rfl

theorem propsCond_eq_map (o : Option (List (String × String)))
    (node : String → String → FilterNode) :
    propsCond o node = (o.getD []).map (fun kv => node kv.1 kv.2) := by
  cases o <;> rfl

theorem buildFilterList_eq_generated (c : Conditions) :
    buildFilterList c = generatedSubtrees c := by
  simp only [buildFilterList, generatedSubtrees, specLeaf,
    strCond_eq_present, optCond_eq_map, propsCond_eq_map]

/-- C3: for every condition set, `buildFilter` returns `AllMarker` when no
condition is present, the single generated subtree alone when exactly one is
present (a bare leaf, or for free-text search alone the `or`-branch), and
otherwise the left-associated `and`-chain of the generated subtrees in the
documented input iteration order (model, model-contains, status, user-id,
provider, start-date, end-date, min-cost, max-cost, min-latency,
max-latency, each property key in insertion order, cached, search,
request-contains, response-contains), where each present condition
contributes exactly one leaf except search, which contributes an
`or`-branch over request-body-contains and response-body-contains leaves. -/
theorem buildFilter_documented_order (c : Conditions) :
    buildFilter c = leftAssocAnd (generatedSubtrees c) := by
  unfold buildFilter leftAssocAnd
  rw [buildFilterList_eq_generated]

example : buildFilter {} = .all := by decide
example : buildFilter { model := some "gpt-4o" } =
    .leaf (jf [("request_response_rmt", .obj (jf [("model", .obj (jf [("equals", .s "gpt-4o")]))]))]) := by
  rfl
example : buildFilter { search := some "err" } =
    .branch
      (.leaf (jf [("request_response_rmt", .obj (jf [("request_body", .obj (jf [("contains", .s "err")]))]))]))
      "or"
      (.leaf (jf [("request_response_rmt", .obj (jf [("response_body", .obj (jf [("contains", .s "err")]))]))])) := by
  rfl
example : buildFilter { model := some "m", status := some 200, cached := some true } =
    .branch
      (.branch
        (.leaf (jf [("request_response_rmt", .obj (jf [("model", .obj (jf [("equals", .s "m")]))]))]))
        "and"
        (.leaf (jf [("request_response_rmt", .obj (jf [("status", .obj (jf [("equals", .i 200)]))]))])))
      "and"
      (.leaf (jf [("request_response_rmt", .obj (jf [("cache_enabled", .obj (jf [("equals", .b true)]))]))])) := by
  rfl

/-! ### C2: combineFilters identities -/

/-- C2 counterexample: the claim asserts `combineFilters(F, "all") = F` for
every filter tree `F`, but for the structurally-empty mapping the left-empty
rule fires first and the result is `"all"`, not the empty mapping. -/
theorem combineFilters_empty_all_cex :
    combineFilters (some (FilterNode.leaf .nil)) FilterNode.all = FilterNode.all ∧
    FilterNode.all ≠ FilterNode.leaf .nil := by
  exact ⟨rfl, by decide⟩

/-- C2 amended: `null`, `"all"` and the structurally-empty mapping act as
"no filter": with any of them on the left, `combineFilters` returns the
right side unchanged; `combineFilters(F, "all") = F` and
`combineFilters(F, emptyMapping) = F` whenever `F` is itself neither `"all"`
nor structurally empty (for an empty-or-`"all"` left side the left rule
fires first and the derived side is returned instead); and when both sides
are non-empty the result is exactly
`{left: userSupplied, operator: "and", right: derived}`. -/
theorem combineFilters_amended :
    (∀ f2, combineFilters none f2 = f2) ∧
    (∀ f2, combineFilters (some .all) f2 = f2) ∧
    (∀ f2, combineFilters (some (.leaf .nil)) f2 = f2) ∧
    (∀ f1, isAllMarker f1 = false → isEmptyObj f1 = false →
      combineFilters (some f1) .all = f1) ∧
    (∀ f1, isAllMarker f1 = false → isEmptyObj f1 = false →
      combineFilters (some f1) (.leaf .nil) = f1) ∧
    (∀ f1 f2, isAllMarker f1 = false → isEmptyObj f1 = false →
      isAllMarker f2 = false → isEmptyObj f2 = false →
      combineFilters (some f1) f2 = .branch f1 "and" f2) := by
  refine ⟨fun f2 => rfl, fun f2 => rfl, fun f2 => rfl, ?_, ?_, ?_⟩
  · intro f1 h1 h2
    simp only [combineFilters]
    rw [h1, h2]
    simp [isAllMarker, isEmptyObj]
  · intro f1 h1 h2
    simp only [combineFilters]
    rw [h1, h2]
    simp [isAllMarker, isEmptyObj]
  · intro f1 f2 h1 h2 h3 h4
    simp [combineFilters, h1, h2, h3, h4]

/-- C2 witness: the amended theorem applied at concrete filters. -/
theorem combineFilters_amended_witness :
    combineFilters
      (some (.leaf (jf [("request_response_rmt", .obj (jf [("model", .obj (jf [("equals", .s "gpt-4o")]))]))])))
      (.leaf (jf [("request_response_rmt", .obj (jf [("status", .obj (jf [("equals", .i 200)]))]))])) =
    .branch
      (.leaf (jf [("request_response_rmt", .obj (jf [("model", .obj (jf [("equals", .s "gpt-4o")]))]))]))
      "and"
      (.leaf (jf [("request_response_rmt", .obj (jf [("status", .obj (jf [("equals", .i 200)]))]))])) :=
  combineFilters_amended.2.2.2.2.2 _ _ rfl rfl rfl rfl

/-- C9: date parsing checks the duration pattern `^(\d+)([hdwm])$` first and
subtracts magnitude × unit from the reference instant (hour, day,
week = 7 days, month = exactly 30 days — so `24h`, `7d`, `4w`, `1m` give
reference minus 24 h, 168 h, 28 d, 30 d respectively); a non-matching
string falls through to ISO-8601 parsing; a string that parses as neither
fails with a descriptive error naming the accepted formats. -/
theorem parseDate_duration_first (isoParse : String → Option Int) (nowMs : Int) :
    (∀ s v, matchDuration s = some (v, 'h') →
      parseDate isoParse nowMs s = .ok (nowMs - (v : Int) * (60 * 60 * 1000))) ∧
    (∀ s v, matchDuration s = some (v, 'd') →
      parseDate isoParse nowMs s = .ok (nowMs - (v : Int) * (24 * 60 * 60 * 1000))) ∧
    (∀ s v, matchDuration s = some (v, 'w') →
      parseDate isoParse nowMs s = .ok (nowMs - (v : Int) * (7 * 24 * 60 * 60 * 1000))) ∧
    (∀ s v, matchDuration s = some (v, 'm') →
      parseDate isoParse nowMs s = .ok (nowMs - (v : Int) * (30 * 24 * 60 * 60 * 1000))) ∧
    (parseDate isoParse nowMs "24h" = .ok (nowMs - 24 * 60 * 60 * 1000)) ∧
    (parseDate isoParse nowMs "7d" = .ok (nowMs - 7 * 24 * 60 * 60 * 1000)) ∧
    (parseDate isoParse nowMs "4w" = .ok (nowMs - 28 * 24 * 60 * 60 * 1000)) ∧
    (parseDate isoParse nowMs "1m" = .ok (nowMs - 30 * 24 * 60 * 60 * 1000)) ∧
    (∀ s, matchDuration s = none →
      parseDate isoParse nowMs s =
        (match isoParse s with
          | some t => .ok t
          | none =>
            .error ("Invalid date format: " ++ s ++
              ". Use ISO format (YYYY-MM-DD) or relative (7d, 24h)"))) ∧
    (∀ s, matchDuration s = none → isoParse s = none →
      parseDate isoParse nowMs s =
        .error ("Invalid date format: " ++ s ++
          ". Use ISO format (YYYY-MM-DD) or relative (7d, 24h)")) := by
  refine ⟨?_, ?_, ?_, ?_, ?_, ?_, ?_, ?_, ?_, ?_⟩
  · intro s v h
    simp [parseDate, parseTimeRange, h]
  · intro s v h
    simp [parseDate, parseTimeRange, h]
  · intro s v h
    simp [parseDate, parseTimeRange, h]
  · intro s v h
    simp [parseDate, parseTimeRange, h]
  · simp +decide [parseDate, parseTimeRange, matchDuration, digitsToNat]
  · simp +decide [parseDate, parseTimeRange, matchDuration, digitsToNat]
  · simp +decide [parseDate, parseTimeRange, matchDuration, digitsToNat]
  · simp +decide [parseDate, parseTimeRange, matchDuration, digitsToNat]
  · intro s h
    simp [parseDate, h]
  · intro s h hiso
    simp [parseDate, h, hiso]

/-- C9 witness: the theorem applied at a fixed reference instant, both for a
duration string and for a string that parses as neither form. -/
theorem parseDate_duration_first_witness :
    parseDate (fun _ => none) 0 "xyz" =
      .error "Invalid date format: xyz. Use ISO format (YYYY-MM-DD) or relative (7d, 24h)" ∧
    parseDate (fun _ => none) 0 "24h" = .ok (-86400000) := by
  constructor
  · exact (parseDate_duration_first (fun _ => none) 0).2.2.2.2.2.2.2.2.2 "xyz" rfl rfl
  · have h := (parseDate_duration_first (fun _ => none) 0).2.2.2.2.1
    norm_num at h
    exact h

/-! ### C5: CSV field escaping -/

/-- C5 counterexample: in the export-path CSV writer a value containing a
newline (but no comma or quote) is emitted verbatim and unquoted, not
wrapped in double quotes as the claim states. -/
theorem csvExport_newline_cex :
    csvFieldExport (some "a\nb") = "a\nb" ∧ "a\nb" ≠ "\"a\nb\"" := by
  refine ⟨rfl, by decide⟩

/-- C5 amended: the list-formatting CSV writer (`formatRequestsCsv`) wraps a
value containing a comma, double quote or newline in double quotes with
internal quotes doubled and emits it verbatim otherwise; the export-path CSV
row writer applies the same rule but tests only comma and double quote, so a
value whose only special character is a newline is emitted verbatim. -/
theorem csvField_quoting_amended (s : String) :
    (includesChar s ',' = false → includesChar s '"' = false → includesChar s '\n' = false →
      csvFieldFormat (some s) = s ∧ csvFieldExport (some s) = s) ∧
    (includesChar s ',' = true ∨ includesChar s '"' = true ∨ includesChar s '\n' = true →
      csvFieldFormat (some s) = "\"" ++ doubleQuotes s ++ "\"") ∧
    (includesChar s ',' = true ∨ includesChar s '"' = true →
      csvFieldExport (some s) = "\"" ++ doubleQuotes s ++ "\"") ∧
    (includesChar s ',' = false → includesChar s '"' = false → csvFieldExport (some s) = s) := by
  refine ⟨?_, ?_, ?_, ?_⟩
  · intro h1 h2 h3
    constructor <;> simp [csvFieldFormat, csvFieldExport, h1, h2, h3]
  · intro h
    rcases h with h | h | h <;> simp [csvFieldFormat, h]
  · intro h
    rcases h with h | h <;> simp [csvFieldExport, h]
  · intro h1 h2
    simp [csvFieldExport, h1, h2]

/-- C5 witness: the amended rules applied at concrete field values. -/
theorem csvField_quoting_amended_witness :
    csvFieldFormat (some "a,b") = "\"a,b\"" ∧ csvFieldExport (some "hello") = "hello" := by
  constructor
  · exact ((csvField_quoting_amended "a,b").2.1 (Or.inl rfl)).trans (by decide)
  · exact (csvField_quoting_amended "hello").2.2.2 rfl rfl

/-! ### C7: metrics summary extrapolation -/

/-- C7: with `totalRequests` taken as the count result when positive and
otherwise the sample size, the scale factor is `totalRequests / sampleSize`
when `totalRequests > sampleSize` and exactly 1 otherwise (never below 1 on
a non-empty sample); the estimated total cost/tokens are the sample sums
times the scale factor (sample cost sum 1.00 over 10 records with true
count 100 gives 10.00); and the averages and error rate are computed over
the sample only. -/
theorem metricsSummary_extrapolation (countData : Option Nat) (requests : List MetricsRec) :
    ((metricsSummary countData requests).sampleSize = requests.length) ∧
    (∀ c, countData = some c → 0 < c →
      (metricsSummary countData requests).totalRequests = c) ∧
    (countData = some 0 ∨ countData = none →
      (metricsSummary countData requests).totalRequests = requests.length) ∧
    ((metricsSummary countData requests).sampleSize <
        (metricsSummary countData requests).totalRequests →
      (metricsSummary countData requests).scaleFactor =
        ((metricsSummary countData requests).totalRequests : Rat) /
          ((metricsSummary countData requests).sampleSize : Rat)) ∧
    ((metricsSummary countData requests).totalRequests ≤
        (metricsSummary countData requests).sampleSize →
      (metricsSummary countData requests).scaleFactor = 1) ∧
    (0 < (metricsSummary countData requests).sampleSize →
      1 ≤ (metricsSummary countData requests).scaleFactor) ∧
    ((metricsSummary countData requests).estimatedTotalCost =
      (metricsSummary countData requests).totalCost *
        (metricsSummary countData requests).scaleFactor) ∧
    ((metricsSummary countData requests).estimatedTotalTokens =
      (metricsSummary countData requests).totalTokens *
        (metricsSummary countData requests).scaleFactor) ∧
    (0 < (metricsSummary countData requests).sampleSize →
      (metricsSummary countData requests).avgLatency =
        (metricsSummary countData requests).totalLatency /
          ((metricsSummary countData requests).sampleSize : Rat) ∧
      (metricsSummary countData requests).avgTokens =
        (metricsSummary countData requests).totalTokens /
          ((metricsSummary countData requests).sampleSize : Rat) ∧
      (metricsSummary countData requests).avgCost =
        (metricsSummary countData requests).totalCost /
          ((metricsSummary countData requests).sampleSize : Rat) ∧
      (metricsSummary countData requests).errorRate =
        (((metricsSummary countData requests).errorCount : Rat) /
          ((metricsSummary countData requests).sampleSize : Rat)) * 100) ∧
    ((metricsSummary (some 100)
        (List.replicate 10 ⟨.num 30, some (1 / 10 : Rat), some 50, 200⟩)).estimatedTotalCost
      = 10) := by
  refine ⟨?_, ?_, ?_, ?_, ?_, ?_, ?_, ?_, ?_, ?_⟩
  · simp [metricsSummary]
  · intro c hc hpos
    subst hc
    simp [metricsSummary, hpos]
  · intro h
    rcases h with h | h <;> subst h <;> simp [metricsSummary]
  · intro h
    simp only [metricsSummary] at h ⊢
    rw [if_pos h]
  · intro h
    simp only [metricsSummary] at h ⊢
    rw [if_neg (by omega)]
  · intro h
    simp only [metricsSummary] at h ⊢
    split
    · rename_i hlt
      rw [one_le_div (by exact_mod_cast h : (0 : Rat) < (requests.length : Rat))]
      exact_mod_cast Nat.le_of_lt hlt
    · exact le_refl 1
  · simp [metricsSummary]
  · simp [metricsSummary]
  · intro h
    simp only [metricsSummary] at h ⊢
    refine ⟨?_, ?_, ?_, ?_⟩ <;> rw [if_pos h]
  · norm_num [metricsSummary, List.replicate_succ, List.foldl_cons, List.foldl_nil,
      Option.getD, tokensOf]

/-- C7 witness: the theorem applied at the spec's worked example (10 sample
records with costs summing to 1.00, true count 100). -/
theorem metricsSummary_extrapolation_witness :
    (metricsSummary (some 100)
      (List.replicate 10 ⟨.num 30, some (1 / 10 : Rat), some 50, 200⟩)).totalRequests = 100 :=
  (metricsSummary_extrapolation (some 100)
    (List.replicate 10 ⟨.num 30, some (1 / 10 : Rat), some 50, 200⟩)).2.1 100 rfl (by decide)

/-! ### C6: error propagation across the client boundary -/

/-- C6 counterexample: the gateway client's `request` has no try/catch, so
a rejected fetch (network failure) propagates as an exception rather than
being returned as a `{data: null, error}` value; and in the direct client a
2xx response lacking the `{data, error}` envelope is returned as a bare
success with `data` populated, not as an error value. -/
theorem client_propagation_cex :
    @gatewayRequest Nat (.throws "fetch failed: ECONNREFUSED") =
      .error "fetch failed: ECONNREFUSED" ∧
    @request Nat 3 (fun _ => .resp 200 none "" (.bare 7)) = ⟨some 7, none⟩ := by
  exact ⟨rfl, rfl⟩

/-- Helper: when every attempt's fetch rejects, the retry loop ends with
the retries-exhausted error carrying the last thrown message. -/
theorem requestGo_all_throws {α : Type} (maxRetries : Nat) (msgs : Nat → String) :
    ∀ fuel attempt lastError, 0 < fuel →
      requestGo (α := α) maxRetries (fun i => .throws (msgs i)) fuel attempt lastError =
        ⟨none, some ("Request failed after " ++ toString (maxRetries + 1) ++ " attempts: " ++
          msgs (attempt + fuel - 1))⟩ := by
  intro fuel
  induction fuel with
  | zero => intro attempt lastError h; omega
  | succ n ih =>
    intro attempt lastError _
    rcases Nat.eq_zero_or_pos n with hn | hn
    · subst hn
      simp [requestGo]
    · rw [requestGo]
      show requestGo maxRetries (fun i => .throws (msgs i)) n (attempt + 1)
          (some (msgs attempt)) = _
      rw [ih (attempt + 1) (some (msgs attempt)) hn]
      have h1 : attempt + 1 + n - 1 = attempt + (n + 1) - 1 := by omega
      rw [h1]

/-- Helper: when every attempt's fetch returns a 429, the retry loop keeps
continuing while attempts remain, and the final attempt falls through to
the non-ok branch, returning the rate-limit response as an `API error 429`
value. -/
theorem requestGo_all_429 {α : Type} (maxRetries : Nat) (ra : Nat → Option Nat)
    (texts : Nat → String) (bodies : Nat → BodyParse α) :
    ∀ fuel attempt lastError, 0 < fuel → fuel + attempt = maxRetries + 1 →
      requestGo maxRetries (fun i => .resp 429 (ra i) (texts i) (bodies i)) fuel attempt
        lastError =
        ⟨none, some ("API error " ++ toString (429 : Nat) ++ ": " ++ texts maxRetries)⟩ := by
  intro fuel
  induction fuel with
  | zero => intro attempt lastError h _; omega
  | succ n ih =>
    intro attempt lastError _ hsum
    rw [requestGo]
    rcases Nat.eq_zero_or_pos n with hn | hn
    · subst hn
      have hatt : attempt = maxRetries := by omega
      subst hatt
      simp [respOk]
    · have hlt : attempt < maxRetries := by omega
      simp only [hlt, and_true, if_true]
      exact ih (attempt + 1) lastError hn (by omega)

/-- C6 amended: the direct client returns network failures, thrown fetch
errors and non-2xx responses — including a 429 still present once retries
are exhausted — as `{data: null, error: string}` values (the retry loop
catches every thrown outcome); a 2xx response carrying the `{data, error}`
envelope is returned as-is and one lacking the envelope is returned as a
bare success, in both backends; the gateway client returns a non-2xx
response's text as an error value, but a rejected fetch or a rejecting
JSON parse propagates as an exception out of `request` (it has no
try/catch) and is only caught at the command level. -/
theorem client_propagation_amended {α : Type} :
    (∀ (maxRetries : Nat) (msgs : Nat → String),
      request (α := α) maxRetries (fun i => .throws (msgs i)) =
        ⟨none, some ("Request failed after " ++ toString (maxRetries + 1) ++ " attempts: " ++
          msgs maxRetries)⟩) ∧
    (∀ (maxRetries status : Nat) (ra : Option Nat) (text : String) (body : BodyParse α)
        (attempts : Nat → FetchOutcome α),
      attempts 0 = .resp status ra text body → respOk status = false → status ≠ 429 →
      request maxRetries attempts =
        ⟨none, some ("API error " ++ toString status ++ ": " ++ text)⟩) ∧
    (∀ (maxRetries status : Nat) (ra : Option Nat) (text : String)
        (d : Option α) (e : Option String) (attempts : Nat → FetchOutcome α),
      attempts 0 = .resp status ra text (.envelope d e) → respOk status = true →
      request maxRetries attempts = ⟨d, e⟩) ∧
    (∀ (maxRetries status : Nat) (ra : Option Nat) (text : String) (t : α)
        (attempts : Nat → FetchOutcome α),
      attempts 0 = .resp status ra text (.bare t) → respOk status = true →
      request maxRetries attempts = ⟨some t, none⟩) ∧
    (∀ (status : Nat) (ra : Option Nat) (text : String) (body : BodyParse α),
      respOk status = false →
      gatewayRequest (.resp status ra text body) = .ok ⟨none, some text⟩) ∧
    (∀ msg, gatewayRequest (α := α) (.throws msg) = .error msg) ∧
    (∀ (status : Nat) (ra : Option Nat) (text : String) (msg : String),
      respOk status = true →
      gatewayRequest (α := α) (.resp status ra text (.jsonThrows msg)) = .error msg) ∧
    (∀ (status : Nat) (ra : Option Nat) (text : String) (d : Option α) (e : Option String),
      respOk status = true →
      gatewayRequest (.resp status ra text (.envelope d e)) = .ok ⟨d, e⟩) ∧
    (∀ (status : Nat) (ra : Option Nat) (text : String) (t : α),
      respOk status = true →
      gatewayRequest (.resp status ra text (.bare t)) = .ok ⟨some t, none⟩) ∧
    (∀ (maxRetries : Nat) (ra : Nat → Option Nat) (texts : Nat → String)
        (bodies : Nat → BodyParse α),
      request maxRetries (fun i => .resp 429 (ra i) (texts i) (bodies i)) =
        ⟨none, some ("API error " ++ toString (429 : Nat) ++ ": " ++ texts maxRetries)⟩) := by
  have hok429 : ∀ status : Nat, respOk status = true → status ≠ 429 := by
    intro status h
    simp only [respOk, Bool.and_eq_true, decide_eq_true_eq] at h
    omega
  refine ⟨?_, ?_, ?_, ?_, ?_, ?_, ?_, ?_, ?_, ?_⟩
  · intro maxRetries msgs
    rw [request, requestGo_all_throws maxRetries msgs (maxRetries + 1) 0 none (by omega)]
    simp
  · intro maxRetries status ra text body attempts h hok h429
    rw [request, requestGo, h]
    simp [h429, hok]
  · intro maxRetries status ra text d e attempts h hok
    rw [request, requestGo, h]
    simp [hok429 status hok, hok]
  · intro maxRetries status ra text t attempts h hok
    rw [request, requestGo, h]
    simp [hok429 status hok, hok]
  · intro status ra text body h
    simp [gatewayRequest, h]
  · intro msg
    rfl
  · intro status ra text msg h
    simp [gatewayRequest, h]
  · intro status ra text d e h
    simp [gatewayRequest, h]
  · intro status ra text t h
    simp [gatewayRequest, h]
  · intro maxRetries ra texts bodies
    exact requestGo_all_429 maxRetries ra texts bodies (maxRetries + 1) 0 none
      (by omega) (by omega)

/-- C6 witness: the amended theorem applied at concrete transport
outcomes, including a bare 2xx body through the gateway client and a
rate-limit run that exhausts its retries. -/
theorem client_propagation_amended_witness :
    @request Nat 3 (fun _ => .resp 500 none "oops" (.jsonThrows "bad json")) =
      ⟨none, some "API error 500: oops"⟩ ∧
    @request Nat 2 (fun i => .throws ("boom " ++ toString i)) =
      ⟨none, some "Request failed after 3 attempts: boom 2"⟩ ∧
    @gatewayRequest Nat (.resp 204 none "" (.bare 9)) = .ok ⟨some 9, none⟩ ∧
    @request Nat 1 (fun i => .resp 429 none ("rate limited " ++ toString i) (.bare 0)) =
      ⟨none, some "API error 429: rate limited 1"⟩ := by
  refine ⟨?_, ?_, ?_, ?_⟩
  · exact client_propagation_amended.2.1 3 500 none "oops" (.jsonThrows "bad json") _ rfl rfl
      (by decide)
  · exact (client_propagation_amended.1 2 (fun i => "boom " ++ toString i)).trans (by decide)
  · exact client_propagation_amended.2.2.2.2.2.2.2.2.1 204 none "" 9 rfl
  · exact (client_propagation_amended.2.2.2.2.2.2.2.2.2 1 (fun _ => none)
      (fun i => "rate limited " ++ toString i) (fun _ => .bare 0)).trans (by decide)

/-! ### C4: export error handling -/

/-- C4 counterexample: a count call returning `{data: null, error:
"network failure"}` is coerced to a zero count (`countResult.data || 0`)
and takes the informational "no requests found" path — the operation does
not report the error or exit non-zero. -/
theorem export_count_error_cex :
    @exportAction Nat .jsonl toString toString (fun _ _ => none) [] false id
      ⟨none, some "network failure"⟩ (fun _ _ => ⟨some [0, 1, 2], none⟩) none 10 =
      .noMatches := rfl

/-- C4 amended: an error returned by a batch query inside the export loop
is fatal — the loop stops at once with the reported error, the stream is
closed with the partial writes left in place, and the process exits
non-zero; but an error from the initial count call is coerced to a zero
count and reported via the informational zero-records path (exit zero, no
stream opened). -/
theorem export_error_handling_amended {Rec : Type} (serC serP : Rec → String)
    (getF : Rec → String → Option String) (fields : List String)
    (ib : Bool) (enr : Rec → Rec) :
    (∀ (fmt : ExportFormat) (query : Nat → Nat → ApiResult (List Rec))
        (maxRecords : Option Nat) (B : Nat) (err : String),
      exportAction fmt serC serP getF fields ib enr ⟨none, some err⟩ query maxRecords B =
        .noMatches) ∧
    (∀ (fmt : ExportFormat) (csvRow : Rec → String)
        (query : Nat → Nat → ApiResult (List Rec)) (R B fuel : Nat) (st : LoopState Rec),
      st.exported < R →
      errTruthy (query st.offset (min B (R - st.exported))).error = true →
      exportLoop fmt serC serP csvRow ib enr query R B (fuel + 1) st =
        .failed
          { st with calls := st.calls ++ [(st.offset, min B (R - st.exported), st.exported)] }
          ((query st.offset (min B (R - st.exported))).error.getD "")) ∧
    (∀ (fmt : ExportFormat) (query : Nat → Nat → ApiResult (List Rec)) (B total : Nat)
        (err : String),
      0 < total → err ≠ "" → (∀ off lim, query off lim = ⟨none, some err⟩) →
      exportAction fmt serC serP getF fields ib enr ⟨some total, none⟩ query none B =
        .fatal (headerFor fmt fields) [] err) := by
  refine ⟨?_, ?_, ?_⟩
  · intro fmt query maxRecords B err
    rfl
  · intro fmt csvRow query R B fuel st hlt herr
    rw [exportLoop]
    simp [hlt, herr]
  · intro fmt query B total err htotal herr hquery
    have htc : (⟨some total, none⟩ : ApiResult Nat).data.getD 0 = total := rfl
    simp only [exportAction, htc]
    rw [if_neg (by omega)]
    rw [exportLoop]
    have herrT : errTruthy (query 0 (min B (total - 0))).error = true := by
      rw [hquery]
      simp [errTruthy, herr]
    simp only [hquery 0 (min B (total - 0))] at herrT ⊢
    simp [htotal, errTruthy, herr]

/-- C4 witness: the amended theorem applied at a concrete failing batch. -/
theorem export_error_handling_amended_witness :
    @exportAction Nat .json toString toString (fun _ _ => none) [] false id
      ⟨some 5, none⟩ (fun _ _ => ⟨none, some "API error 500: boom"⟩) none 2 =
      .fatal ["[\n"] [] "API error 500: boom" := by
  exact (export_error_handling_amended toString toString (fun _ _ => none) [] false
    id).2.2 .json (fun _ _ => ⟨none, some "API error 500: boom"⟩) 2 5 "API error 500: boom"
    (by decide) (by decide) (fun _ _ => rfl)

/-! ### Helper lemmas for the export loop -/

theorem writeRecord_exported {Rec : Type} (fmt : ExportFormat) (serC serP : Rec → String)
    (csvRow : Rec → String) (s : LoopState Rec) (r : Rec) :
    (writeRecord fmt serC serP csvRow s r).exported = s.exported := by
  cases fmt <;> rfl

theorem writeRecord_offset {Rec : Type} (fmt : ExportFormat) (serC serP : Rec → String)
    (csvRow : Rec → String) (s : LoopState Rec) (r : Rec) :
    (writeRecord fmt serC serP csvRow s r).offset = s.offset := by
  cases fmt <;> rfl

theorem writeRecord_calls {Rec : Type} (fmt : ExportFormat) (serC serP : Rec → String)
    (csvRow : Rec → String) (s : LoopState Rec) (r : Rec) :
    (writeRecord fmt serC serP csvRow s r).calls = s.calls := by
  cases fmt <;> rfl

theorem writeRecord_sink {Rec : Type} (fmt : ExportFormat) (serC serP : Rec → String)
    (csvRow : Rec → String) (s : LoopState Rec) (r : Rec) :
    (writeRecord fmt serC serP csvRow s r).sink = s.sink ++ [r] := by
  cases fmt <;> rfl

theorem writeFold_exported {Rec : Type} (fmt : ExportFormat) (serC serP : Rec → String)
    (csvRow : Rec → String) (rs : List Rec) :
    ∀ s : LoopState Rec,
      (rs.foldl (writeRecord fmt serC serP csvRow) s).exported = s.exported := by
  induction rs with
  | nil => intro s; rfl
  | cons r rs ih =>
    intro s
    rw [List.foldl_cons, ih, writeRecord_exported]

theorem writeFold_offset {Rec : Type} (fmt : ExportFormat) (serC serP : Rec → String)
    (csvRow : Rec → String) (rs : List Rec) :
    ∀ s : LoopState Rec,
      (rs.foldl (writeRecord fmt serC serP csvRow) s).offset = s.offset := by
  induction rs with
  | nil => intro s; rfl
  | cons r rs ih =>
    intro s
    rw [List.foldl_cons, ih, writeRecord_offset]

theorem writeFold_calls {Rec : Type} (fmt : ExportFormat) (serC serP : Rec → String)
    (csvRow : Rec → String) (rs : List Rec) :
    ∀ s : LoopState Rec,
      (rs.foldl (writeRecord fmt serC serP csvRow) s).calls = s.calls := by
  induction rs with
  | nil => intro s; rfl
  | cons r rs ih =>
    intro s
    rw [List.foldl_cons, ih, writeRecord_calls]

theorem writeFold_sink {Rec : Type} (fmt : ExportFormat) (serC serP : Rec → String)
    (csvRow : Rec → String) (rs : List Rec) :
    ∀ s : LoopState Rec,
      (rs.foldl (writeRecord fmt serC serP csvRow) s).sink = s.sink ++ rs := by
  induction rs with
  | nil => intro s; simp
  | cons r rs ih =>
    intro s
    rw [List.foldl_cons, ih, writeRecord_sink]
    simp

/-- With fuel exceeding the remaining record budget, the export loop never
runs out of fuel: every non-breaking iteration writes at least one record,
so at most `recordsToExport` iterations run. -/
theorem exportLoop_no_fuel_exhaustion {Rec : Type} (fmt : ExportFormat)
    (serC serP : Rec → String) (csvRow : Rec → String) (ib : Bool) (enr : Rec → Rec)
    (query : Nat → Nat → ApiResult (List Rec)) (R B : Nat) :
    ∀ (fuel : Nat) (st : LoopState Rec), R - st.exported < fuel →
      (exportLoop fmt serC serP csvRow ib enr query R B fuel st).isOutOfFuel = false := by
  intro fuel
  induction fuel with
  | zero => intro st h; omega
  | succ n ih =>
    intro st h
    rw [exportLoop]
    by_cases hg : st.exported < R
    · by_cases herr : errTruthy (query st.offset (min B (R - st.exported))).error = true
      · simp [hg, herr, LoopResult.isOutOfFuel]
      · by_cases hemp : ((query st.offset (min B (R - st.exported))).data.getD []).isEmpty = true
        · simp [hg, herr, hemp, LoopResult.isOutOfFuel]
        · have hne : (query st.offset (min B (R - st.exported))).data.getD [] ≠ [] := by
            simpa [List.isEmpty_iff] using hemp
          have hlen : 0 < ((query st.offset (min B (R - st.exported))).data.getD []).length :=
            List.length_pos.mpr hne
          simp only [Bool.not_eq_true] at herr hemp
          simp [hg, herr, hemp]
          apply ih
          simp only [writeFold_exported]
          omega
    · simp [hg, LoopResult.isOutOfFuel]

/-! ### C10: export loop invariants -/

/-- C10: for every batch-response sequence in which each response carries
at most the requested limit, the export loop terminates (with fuel
exceeding the remaining budget it never reaches the out-of-fuel marker);
every query it issues requests exactly `min(batchSize, recordsToExport −
exported)` records; and starting from any state with `exported ≤
recordsToExport` whose sink matches its exported count, the final state
still satisfies `exported ≤ recordsToExport` and the sink has received at
most `recordsToExport` records. -/
theorem export_loop_invariant {Rec : Type} (fmt : ExportFormat) (serC serP : Rec → String)
    (csvRow : Rec → String) (ib : Bool) (enr : Rec → Rec)
    (query : Nat → Nat → ApiResult (List Rec)) (R B : Nat)
    (hresp : ∀ off lim, ((query off lim).data.getD []).length ≤ lim) :
    (∀ (fuel : Nat) (st : LoopState Rec), R - st.exported < fuel →
      (exportLoop fmt serC serP csvRow ib enr query R B fuel st).isOutOfFuel = false) ∧
    (∀ (fuel : Nat) (st : LoopState Rec), st.exported ≤ R →
      st.sink.length = st.exported →
      (exportLoop fmt serC serP csvRow ib enr query R B fuel st).stateOf.exported ≤ R ∧
      (exportLoop fmt serC serP csvRow ib enr query R B fuel st).stateOf.sink.length =
        (exportLoop fmt serC serP csvRow ib enr query R B fuel st).stateOf.exported ∧
      (exportLoop fmt serC serP csvRow ib enr query R B fuel st).stateOf.sink.length ≤ R) ∧
    (∀ (fuel : Nat) (st : LoopState Rec),
      (∀ c ∈ st.calls, c.2.1 = min B (R - c.2.2)) →
      ∀ c ∈ (exportLoop fmt serC serP csvRow ib enr query R B fuel st).stateOf.calls,
        c.2.1 = min B (R - c.2.2)) := by
  refine ⟨exportLoop_no_fuel_exhaustion fmt serC serP csvRow ib enr query R B, ?_, ?_⟩
  · intro fuel
    induction fuel with
    | zero =>
      intro st hle hsink
      rw [exportLoop]
      simp only [LoopResult.stateOf]
      exact ⟨hle, hsink, by omega⟩
    | succ n ih =>
      intro st hle hsink
      rw [exportLoop]
      by_cases hg : st.exported < R
      · by_cases herr : errTruthy (query st.offset (min B (R - st.exported))).error = true
        · simp only [hg, if_true, herr, if_pos, LoopResult.stateOf]
          exact ⟨hle, hsink, by omega⟩
        · by_cases hemp :
              ((query st.offset (min B (R - st.exported))).data.getD []).isEmpty = true
          · simp only [Bool.not_eq_true] at herr
            simp only [hg, if_true, herr, Bool.false_eq_true, if_false, hemp, if_pos,
              LoopResult.stateOf]
            exact ⟨hle, hsink, by omega⟩
          · simp only [Bool.not_eq_true] at herr hemp
            simp only [hg, if_true, herr, Bool.false_eq_true, if_false, hemp]
            have hlen := hresp st.offset (min B (R - st.exported))
            apply ih
            · rw [writeFold_exported]
              simp only []
              omega
            · simp only [writeFold_exported, writeFold_sink]
              rw [List.length_append]
              cases ib <;> simp [hsink]
      · simp only [hg, if_false, LoopResult.stateOf]
        exact ⟨hle, hsink, by omega⟩
  · intro fuel
    induction fuel with
    | zero =>
      intro st hcalls
      rw [exportLoop]
      simp only [LoopResult.stateOf]
      exact hcalls
    | succ n ih =>
      intro st hcalls
      rw [exportLoop]
      have hcalls1 : ∀ c ∈ st.calls ++ [(st.offset, min B (R - st.exported), st.exported)],
          c.2.1 = min B (R - c.2.2) := by
        intro c hc
        rcases List.mem_append.mp hc with hc | hc
        · exact hcalls c hc
        · simp only [List.mem_singleton] at hc
          subst hc
          rfl
      by_cases hg : st.exported < R
      · by_cases herr : errTruthy (query st.offset (min B (R - st.exported))).error = true
        · simp only [hg, if_true, herr, if_pos, LoopResult.stateOf]
          exact hcalls1
        · by_cases hemp :
              ((query st.offset (min B (R - st.exported))).data.getD []).isEmpty = true
          · simp only [Bool.not_eq_true] at herr
            simp only [hg, if_true, herr, Bool.false_eq_true, if_false, hemp, if_pos,
              LoopResult.stateOf]
            exact hcalls1
          · simp only [Bool.not_eq_true] at herr hemp
            simp only [hg, if_true, herr, Bool.false_eq_true, if_false, hemp]
            apply ih
            simp only [writeFold_calls]
            exact hcalls1
      · simp only [hg, if_false, LoopResult.stateOf]
        exact hcalls

/-- C10 witness: the invariants applied to a concrete two-record paged
run. -/
theorem export_loop_invariant_witness :
    (@exportLoop Nat .jsonl toString toString (fun _ => "") false id
      (pageQuery [10, 20]) 2 1 3
      { writes := [], sink := [], calls := [], offset := 0, exported := 0,
        isFirst := true }).isOutOfFuel = false :=
  (export_loop_invariant .jsonl toString toString (fun _ => "") false id
    (pageQuery [10, 20]) 2 1
    (by
      intro off lim
      simp [pageQuery])).1 3 _ (by decide)

/-! ### C8: json array framing -/

theorem concatWrites_append (a b : List String) :
    concatWrites (a ++ b) = concatWrites a ++ concatWrites b := by
  induction a with
  | nil => simp [concatWrites]
  | cons x xs ih => simp [concatWrites, ih, String.append_assoc]

theorem joinSep_append_singleton (sep y : String) :
    ∀ xs : List String, xs ≠ [] →
      joinSep sep (xs ++ [y]) = joinSep sep xs ++ sep ++ y := by
  intro xs
  induction xs with
  | nil => intro h; exact absurd rfl h
  | cons x rest ih =>
    intro _
    cases rest with
    | nil => simp [joinSep]
    | cons z zs =>
      have hrec := ih (by simp)
      simp only [List.cons_append, List.append_eq, joinSep] at hrec ⊢
      rw [hrec]
      simp [String.append_assoc]

/-- One `json`-format write step preserves the array-framing invariant:
the stream contents are `[` plus the `,\n`-joined serializations of the
records written so far, and the first-record flag tracks emptiness. -/
theorem json_writeFold_invariant {Rec : Type} (serC serP : Rec → String)
    (csvRow : Rec → String) (rs : List Rec) :
    ∀ s : LoopState Rec,
      concatWrites s.writes = "[\n" ++ joinSep ",\n" (s.sink.map serP) →
      s.isFirst = s.sink.isEmpty →
      concatWrites ((rs.foldl (writeRecord .json serC serP csvRow) s)).writes =
        "[\n" ++ joinSep ",\n" ((rs.foldl (writeRecord .json serC serP csvRow) s).sink.map serP) ∧
      (rs.foldl (writeRecord .json serC serP csvRow) s).isFirst =
        (rs.foldl (writeRecord .json serC serP csvRow) s).sink.isEmpty := by
  induction rs with
  | nil =>
    intro s h1 h2
    exact ⟨h1, h2⟩
  | cons r rest ih =>
    intro s h1 h2
    rw [List.foldl_cons]
    apply ih
    · cases hs : s.sink with
      | nil =>
        have hf : s.isFirst = true := by rw [h2, hs]; rfl
        rw [hs] at h1
        simp only [List.map_nil, joinSep] at h1
        simp [writeRecord, hf, concatWrites_append, h1, hs, concatWrites, joinSep,
          String.append_assoc]
      | cons a as =>
        have hf : s.isFirst = false := by rw [h2, hs]; rfl
        simp only [writeRecord, hf, Bool.false_eq_true, if_false]
        rw [concatWrites_append, concatWrites_append, h1, hs]
        simp only [concatWrites]
        rw [List.map_append]
        simp only [List.map_cons, List.map_nil]
        rw [joinSep_append_singleton ",\n" (serP r) (serP a :: List.map serP as) (by simp)]
        simp [String.append_assoc, String.append_empty]
    · simp [writeRecord]

/-- The export loop in `json` format preserves the array-framing
invariant. -/
theorem json_loop_invariant {Rec : Type} (serC serP : Rec → String)
    (csvRow : Rec → String) (ib : Bool) (enr : Rec → Rec)
    (query : Nat → Nat → ApiResult (List Rec)) (R B : Nat) :
    ∀ (fuel : Nat) (st : LoopState Rec),
      concatWrites st.writes = "[\n" ++ joinSep ",\n" (st.sink.map serP) →
      st.isFirst = st.sink.isEmpty →
      concatWrites
          (exportLoop .json serC serP csvRow ib enr query R B fuel st).stateOf.writes =
        "[\n" ++ joinSep ",\n"
          ((exportLoop .json serC serP csvRow ib enr query R B fuel st).stateOf.sink.map serP) := by
  intro fuel
  induction fuel with
  | zero =>
    intro st h1 h2
    rw [exportLoop]
    simpa only [LoopResult.stateOf] using h1
  | succ n ih =>
    intro st h1 h2
    rw [exportLoop]
    by_cases hg : st.exported < R
    · by_cases herr : errTruthy (query st.offset (min B (R - st.exported))).error = true
      · simp only [hg, if_true, herr, if_pos, LoopResult.stateOf]
        exact h1
      · by_cases hemp :
            ((query st.offset (min B (R - st.exported))).data.getD []).isEmpty = true
        · simp only [Bool.not_eq_true] at herr
          simp only [hg, if_true, herr, Bool.false_eq_true, if_false, hemp, if_pos,
            LoopResult.stateOf]
          exact h1
        · simp only [Bool.not_eq_true] at herr hemp
          simp only [hg, if_true, herr, Bool.false_eq_true, if_false, hemp]
          have hstep := json_writeFold_invariant serC serP csvRow
            (if ib then ((query st.offset (min B (R - st.exported))).data.getD []).map enr
              else (query st.offset (min B (R - st.exported))).data.getD [])
            { st with calls := st.calls ++ [(st.offset, min B (R - st.exported), st.exported)] }
            h1 h2
          exact ih _ hstep.1 hstep.2
    · simp only [hg, if_false, LoopResult.stateOf]
      exact h1

/-- Core of the `json` action framing: whatever the loop does from the
job-open state, a successful outcome's stream contents are a single
bracketed, comma-joined array body. -/
theorem json_action_core {Rec : Type} (serC serP : Rec → String) (csvRow : Rec → String)
    (ib : Bool) (enr : Rec → Rec) (query : Nat → Nat → ApiResult (List Rec))
    (R B fuel : Nat) :
    ∀ (w : List String) (sink : List Rec) (n : Nat),
      (match exportLoop .json serC serP csvRow ib enr query R B fuel
          { writes := ["[\n"], sink := [], calls := [], offset := 0, exported := 0,
            isFirst := true } with
        | .done st => ExportOutcome.success (st.writes ++ ["\n]\n"]) st.sink st.exported
        | .failed st err => ExportOutcome.fatal st.writes st.sink err
        | .outOfFuel st => ExportOutcome.fatal st.writes st.sink "loop out of fuel") =
        ExportOutcome.success w sink n →
      concatWrites w = "[\n" ++ joinSep ",\n" (sink.map serP) ++ "\n]\n" := by
  intro w sink n h
  have hinv := json_loop_invariant serC serP csvRow ib enr query R B fuel
    { writes := ["[\n"], sink := [], calls := [], offset := 0, exported := 0,
      isFirst := true }
    (by simp [concatWrites, joinSep]) rfl
  cases hres : exportLoop .json serC serP csvRow ib enr query R B fuel
      { writes := ["[\n"], sink := [], calls := [], offset := 0, exported := 0,
        isFirst := true } with
  | done st =>
    rw [hres] at h hinv
    simp only [LoopResult.stateOf] at hinv
    injection h with hw hsink hn
    subst hw
    subst hsink
    rw [concatWrites_append, hinv]
    simp [concatWrites, String.append_assoc]
  | failed st err =>
    rw [hres] at h
    exact ExportOutcome.noConfusion h
  | outOfFuel st =>
    rw [hres] at h
    exact ExportOutcome.noConfusion h

/-- C8: for every `json`-format export job, regardless of how the exported
records are split across batches, a successful run's output stream is a
single well-formed JSON array: `[` written once at job open, consecutive
serialized records separated by `,\n` in encounter order (the first-record
flag is job-scoped, not batch-scoped), and `]` written once at job close
with no trailing comma.  For a concrete 3-record export split across
batches of 2, the output parses as a JSON array of exactly those 3
elements. -/
theorem export_json_array {Rec : Type} (serC serP : Rec → String)
    (getF : Rec → String → Option String) (fields : List String)
    (ib : Bool) (enr : Rec → Rec) :
    (∀ (count : ApiResult Nat) (query : Nat → Nat → ApiResult (List Rec))
        (cap : Option Nat) (B : Nat) (w : List String) (sink : List Rec) (n : Nat),
      exportAction .json serC serP getF fields ib enr count query cap B =
        .success w sink n →
      concatWrites w = "[\n" ++ joinSep ",\n" (sink.map serP) ++ "\n]\n") ∧
    parseJsonText (concatWrites (ExportOutcome.writesOf (exportAction .json compactFlat
        prettyFlat (fun r f => ((r.find? (fun kv => kv.1 == f)).map Prod.snd)) ["id"]
        false id ⟨some 3, none⟩
        (pageQuery [[("id", "a")], [("id", "b")], [("id", "c")]]) none 2))) =
      some (.parr [.pobj [("id", .pstr "a")], .pobj [("id", .pstr "b")],
        .pobj [("id", .pstr "c")]]) := by
  constructor
  · intro count query cap B w sink n h
    simp only [exportAction, headerFor] at h
    split at h
    · exact ExportOutcome.noConfusion h
    · exact json_action_core serC serP (csvRowExport getF fields) ib enr query _ B _ w sink n h
  · rfl

/-- C8 witness: the framing equation applied to the concrete 3-record
export. -/
theorem export_json_array_witness :
    concatWrites ["[\n", "\x7b\n  \"id\": \"a\"\n\x7d", ",\n",
        "\x7b\n  \"id\": \"b\"\n\x7d", ",\n", "\x7b\n  \"id\": \"c\"\n\x7d",
        "\n]\n"] =
      "[\n" ++ joinSep ",\n"
        ([[("id", "a")], [("id", "b")], [("id", "c")]].map prettyFlat) ++ "\n]\n" :=
  (export_json_array compactFlat prettyFlat
    (fun r f => ((r.find? (fun kv => kv.1 == f)).map Prod.snd)) ["id"] false id).1
    ⟨some 3, none⟩ (pageQuery [[("id", "a")], [("id", "b")], [("id", "c")]]) none 2
    ["[\n", "\x7b\n  \"id\": \"a\"\n\x7d", ",\n", "\x7b\n  \"id\": \"b\"\n\x7d",
      ",\n", "\x7b\n  \"id\": \"c\"\n\x7d", "\n]\n"]
    [[("id", "a")], [("id", "b")], [("id", "c")]] 3 (by decide)

/-! ### C1: pagination against an exactly-paged source -/

/-- Against a source holding exactly `allRecs` and serving
`slice(offset, offset + limit)` pages, the loop (without enrichment) ends
having written exactly the first `R` records, in order, each once.
Invariant: before each iteration either `offset = exported` (all full
batches so far) or `exported = R` (the short final batch just finished). -/
theorem pageLoop_complete {Rec : Type} (fmt : ExportFormat) (serC serP : Rec → String)
    (csvRow : Rec → String) (enr : Rec → Rec) (allRecs : List Rec) (R B : Nat)
    (hB : 1 ≤ B) (hR : R ≤ allRecs.length) :
    ∀ (fuel : Nat) (st : LoopState Rec), R - st.exported < fuel →
      (st.offset = st.exported ∨ st.exported = R) → st.exported ≤ R →
      st.sink = allRecs.take st.exported →
      ∃ st', exportLoop fmt serC serP csvRow false enr (pageQuery allRecs) R B fuel st =
          .done st' ∧ st'.exported = R ∧ st'.sink = allRecs.take R := by
  intro fuel
  induction fuel with
  | zero => intro st h _ _ _; omega
  | succ n ih =>
    intro st h hdisj hle hsink
    rw [exportLoop]
    by_cases hg : st.exported < R
    · have hoff : st.offset = st.exported := by
        rcases hdisj with hd | hd
        · exact hd
        · omega
      have herr : errTruthy (pageQuery allRecs st.offset (min B (R - st.exported))).error
          = false := rfl
      have hlim1 : 1 ≤ min B (R - st.exported) := by omega
      have hlen : ((pageQuery allRecs st.offset (min B (R - st.exported))).data.getD []).length
          = min B (R - st.exported) := by
        simp only [pageQuery, Option.getD_some]
        rw [List.length_take, List.length_drop, hoff]
        omega
      have hemp : ((pageQuery allRecs st.offset (min B (R - st.exported))).data.getD
          []).isEmpty = false := by
        rw [List.isEmpty_eq_false_iff_exists_mem]
        have : 0 < ((pageQuery allRecs st.offset (min B (R - st.exported))).data.getD
            []).length := by omega
        rcases List.exists_mem_of_length_pos this with ⟨a, ha⟩
        exact ⟨a, ha⟩
      simp only [hg, if_true, herr, Bool.false_eq_true, if_false, hemp]
      have hexp := writeFold_exported fmt serC serP csvRow
        ((pageQuery allRecs st.offset (min B (R - st.exported))).data.getD [])
        { st with calls := st.calls ++ [(st.offset, min B (R - st.exported), st.exported)] }
      have hoffs := writeFold_offset fmt serC serP csvRow
        ((pageQuery allRecs st.offset (min B (R - st.exported))).data.getD [])
        { st with calls := st.calls ++ [(st.offset, min B (R - st.exported), st.exported)] }
      have hsinks := writeFold_sink fmt serC serP csvRow
        ((pageQuery allRecs st.offset (min B (R - st.exported))).data.getD [])
        { st with calls := st.calls ++ [(st.offset, min B (R - st.exported), st.exported)] }
      apply ih
      · simp only [hexp]
        omega
      · simp only [hexp, hoffs, hlen]
        rcases Nat.le_total B (R - st.exported) with hc | hc
        · left
          rw [Nat.min_eq_left hc, hoff]
        · right
          rw [Nat.min_eq_right hc]
          omega
      · simp only [hexp, hlen]
        omega
      · simp only [hexp, hlen, hsinks]
        rw [hsink]
        simp only [pageQuery, Option.getD_some]
        rw [hoff]
        exact (List.take_add allRecs st.exported (min B (R - st.exported))).symm
    · have heq : st.exported = R := by omega
      refine ⟨st, by simp [hg], heq, ?_⟩
      rw [hsink, heq]

/-- C1 counterexample: with an explicit cap of 0 the cap guard
`maxRecords ? Math.min(totalCount, maxRecords) : totalCount` treats 0 as
falsy, so the engine exports every record instead of the claimed
`min(total, explicitCap) = 0`. -/
theorem export_cap_zero_cex :
    @exportAction Nat .jsonl toString toString (fun _ _ => none) [] false id
      ⟨some 1, none⟩ (pageQuery [0]) (some 0) 1 = .success ["0\n"] [0] 1 ∧
    (1 : Nat) ≠ min 1 0 := by
  exact ⟨by decide, by decide⟩

/-- C1 amended: against a source holding exactly `total` matching records
served in pages of the requested size (count call returning `total`), the
engine writes exactly `min(total, explicitCap)` records when a positive
explicit cap is given and all `total` records when the cap is absent — or
zero, which the truthiness guard treats as "no cap" — to the sink, each
exactly once, in source order; a batch returning zero records terminates
the loop even when the target is not reached; and after each iteration the
offset has advanced by the request batch size, not by the number of
records actually returned. -/
theorem export_pagination_amended {Rec : Type} (fmt : ExportFormat)
    (serC serP : Rec → String) (getF : Rec → String → Option String)
    (fields : List String) (enr : Rec → Rec) :
    (∀ (allRecs : List Rec) (cap : Option Nat) (B : Nat), 1 ≤ B → allRecs ≠ [] →
      ∃ w, exportAction fmt serC serP getF fields false enr ⟨some allRecs.length, none⟩
          (pageQuery allRecs) cap B =
        .success w
          (allRecs.take (match cap with
            | some m => if m = 0 then allRecs.length else min allRecs.length m
            | none => allRecs.length))
          (match cap with
            | some m => if m = 0 then allRecs.length else min allRecs.length m
            | none => allRecs.length)) ∧
    (∀ (csvRow : Rec → String) (ib : Bool) (query : Nat → Nat → ApiResult (List Rec))
        (R B fuel : Nat) (st : LoopState Rec),
      st.exported < R →
      query st.offset (min B (R - st.exported)) = ⟨some [], none⟩ →
      exportLoop fmt serC serP csvRow ib enr query R B (fuel + 1) st =
        .done { st with
          calls := st.calls ++ [(st.offset, min B (R - st.exported), st.exported)] }) ∧
    (∀ (csvRow : Rec → String) (query : Nat → Nat → ApiResult (List Rec))
        (R B fuel : Nat) (st : LoopState Rec) (rs : List Rec),
      st.exported < R →
      query st.offset (min B (R - st.exported)) = ⟨some rs, none⟩ → rs ≠ [] →
      ∃ st1, exportLoop fmt serC serP csvRow false enr query R B (fuel + 1) st =
          exportLoop fmt serC serP csvRow false enr query R B fuel st1 ∧
        st1.offset = st.offset + B ∧
        st1.exported = st.exported + rs.length ∧
        st1.sink = st.sink ++ rs) := by
  refine ⟨?_, ?_, ?_⟩
  · intro allRecs cap B hB hne
    have hlen0 : ¬ (allRecs.length = 0) := by
      simpa [List.length_eq_zero] using hne
    simp only [exportAction, Option.getD_some]
    set N := (match cap with
      | some m => if m = 0 then allRecs.length else min allRecs.length m
      | none => allRecs.length) with hN
    have hNle : N ≤ allRecs.length := by
      rw [hN]
      cases cap with
      | none => exact le_refl _
      | some m =>
        by_cases hm : m = 0
        · simp [hm]
        · simp only [hm, if_false]
          omega
    obtain ⟨st', hloop, hexp, hsink⟩ := pageLoop_complete fmt serC serP
      (csvRowExport getF fields) enr allRecs N B hB hNle (N + 1)
      { writes := headerFor fmt fields, sink := [], calls := [], offset := 0,
        exported := 0, isFirst := true }
      (by show N - 0 < N + 1; omega) (Or.inl rfl)
      (by show (0 : Nat) ≤ N; omega)
      (by show ([] : List Rec) = allRecs.take 0; simp)
    rw [if_neg hlen0, hloop]
    cases fmt <;> exact ⟨_, by dsimp only; rw [hexp, hsink]⟩
  · intro csvRow ib query R B fuel st hg hq
    rw [exportLoop]
    simp [hg, hq, errTruthy]
  · intro csvRow query R B fuel st rs hg hq hne
    have hemp : rs.isEmpty = false := by
      simpa [List.isEmpty_iff] using hne
    rw [exportLoop]
    simp only [hg, if_true, hq, errTruthy, Bool.false_eq_true, if_false, hemp,
      Option.getD_some, Bool.not_eq_true]
    refine ⟨_, rfl, ?_, ?_, ?_⟩
    · simp only [writeFold_offset]
    · simp only [writeFold_exported]
    · simp only [writeFold_sink]

/-- C1 witness: a three-record source with a positive cap of 2 and batch
size 2 exports exactly the first two records. -/
theorem export_pagination_amended_witness :
    ∃ w, @exportAction Nat .jsonl toString toString (fun _ _ => none) [] false id
        ⟨some 3, none⟩ (pageQuery [10, 20, 30]) (some 2) 2 =
      .success w ([10, 20, 30].take 2) 2 :=
  (export_pagination_amended .jsonl toString toString (fun _ _ => none) [] id).1
    [10, 20, 30] (some 2) 2 (by decide) (by decide)

end HeliconeCli
